import Mathlib

/-!
Verification of the association-object ORM example
(`examples/01_association/01_basic_association.py`) against its
natural-language specification.

The example's three entity kinds (`Order`, `Item`, `OrderItem`) and the
constructor logic are embedded directly from the Python source.  The ORM
machinery the example relies on (Session / identity map, delete-orphan
cascade, eager joined loading, query building) lives in the library part
of the repository, outside the example file; those parts are modelled
from the specification and carry a `Modelled from the spec:` doc comment.

`Float` columns are embedded as `ℚ`: the prices in the example are exact
decimals and the only operations performed on them are comparison and
storage, so rational arithmetic is a faithful shallow embedding.
-/

/-- Embeds the `item` table rows / the `Item` mapped class:
`item_id` (integer primary key), `description`, `price`. -/
structure Item where
  item_id : Nat
  description : String
  price : ℚ
  deriving DecidableEq, Repr

/-- Embeds the `"order"` table rows / the `Order` mapped class:
`order_id` (integer primary key), `customer_name`, `order_date`
(a timestamp, embedded as `Nat`). -/
structure OrderRow where
  order_id : Nat
  customer_name : String
  order_date : Nat
  deriving DecidableEq, Repr

/-- Embeds the `orderitem` table rows / the `OrderItem` mapped class:
composite primary key `(order_id, item_id)`, payload `price`. -/
structure OrderItemRow where
  order_id : Nat
  item_id : Nat
  price : ℚ
  deriving DecidableEq, Repr

/-- Embeds `OrderItem.__init__`:

```python
def __init__(self, item, price=None):
    self.item = item
    self.price = price or item.price
```

`price or item.price` takes `item.price` whenever the supplied `price`
is falsy — i.e. when the argument is omitted, explicitly `None`
(both embedded as `none`), or the float `0.0` (embedded as `some 0`). -/
def orderItemPrice (item : Item) (price : Option ℚ) : ℚ :=
  match price with
  | none => item.price
  | some p => if p = 0 then item.price else p

/-- Constructs the `OrderItemRow` produced for `order_id = oid` by
`OrderItem(item, price)` once flushed (the foreign keys come from the
owning order and the referenced item). -/
def mkOrderItemRow (oid : Nat) (item : Item) (price : Option ℚ) : OrderItemRow :=
  { order_id := oid, item_id := item.item_id, price := orderItemPrice item price }

/-- The storage backend's tables, as created by `Base.metadata.create_all`:
`"order"`, `item`, and `orderitem`.  Rows are listed in backend row order
(primary-key order, which is how the example's SQLite backend returns
them). -/
structure DB where
  orders : List OrderRow
  items : List Item
  orderitems : List OrderItemRow
  deriving Repr

/-- Embeds the sale query of the example's `__main__`:

```sql
SELECT "order".* FROM "order"
JOIN orderitem ON "order".order_id = orderitem.order_id
JOIN item ON item.item_id = orderitem.item_id
WHERE item.description = ? AND item.price > orderitem.price
```

executed against the backend: the inner join fans each order out across
its matching `orderitem` rows and their `item` rows, then the combined
predicate filters, and the `Order` columns are projected. -/
def saleQueryOrders (db : DB) (desc : String) : List OrderRow :=
  db.orders.flatMap (fun o =>
    ((db.orderitems.filter (fun oi => oi.order_id = o.order_id)).flatMap (fun oi =>
      (db.items.filter (fun it =>
        it.item_id = oi.item_id && it.description = desc && oi.price < it.price)).map
          (fun _ => o))))

/-- The customer names printed by `[order.customer_name for order in q]`. -/
def saleQueryCustomers (db : DB) (desc : String) : List String :=
  (saleQueryOrders db desc).map OrderRow.customer_name

/-- Modelled from the spec: the eager (`joined`) load algorithm of the
Relationship Resolver / Query Builder (the `relationship(..., lazy="joined")`
machinery is library code outside the example file).  The single backend
fetch joins the owner, linking, and target tables and returns one row per
linking row, tagged with the owner's key tuple `κ` and carrying the
linking+target data `α`.  `assembleJoined` materializes that row stream:
owner rows fanned out across several linked rows are deduplicated (first
occurrence wins, keeping backend order), and each owner's relationship
attribute collects its linked rows in backend row order, no re-sort. -/
def assembleJoined {κ α : Type} [DecidableEq κ] : List (κ × α) → List (κ × List α)
  | [] => []
  | r :: rest =>
      (r.1, r.2 :: ((rest.filter (fun s => s.1 = r.1)).map Prod.snd))
        :: assembleJoined (rest.filter (fun s => decide (s.1 ≠ r.1)))
termination_by l => l.length
decreasing_by
  simp only [List.length_cons]
  exact Nat.lt_succ_of_le (List.length_filter_le _ _)

/-- Every owner key appearing in the assembled result appears among the
fetched rows. -/
theorem assembleJoined_keys_subset {κ α : Type} [DecidableEq κ]
    (rows : List (κ × α)) :
    ∀ k ∈ (assembleJoined rows).map Prod.fst, k ∈ rows.map Prod.fst := by
  induction rows using assembleJoined.induct with
  | case1 => intro k hk; simp [assembleJoined] at hk
  | case2 r rest ih =>
      intro k hk
      simp only [assembleJoined, List.map_cons, List.mem_cons] at hk
      rcases hk with hk | hk
      · simp [hk]
      · have := ih k hk
        simp only [List.mem_map] at this ⊢
        obtain ⟨s, hs, hsk⟩ := this
        exact ⟨s, List.mem_cons_of_mem r (List.mem_of_mem_filter hs), hsk⟩

/-- The outer result sequence contains no duplicated owner key. -/
theorem assembleJoined_keys_nodup {κ α : Type} [DecidableEq κ]
    (rows : List (κ × α)) :
    ((assembleJoined rows).map Prod.fst).Nodup := by
  induction rows using assembleJoined.induct with
  | case1 => simp [assembleJoined]
  | case2 r rest ih =>
      simp only [assembleJoined, List.map_cons, List.nodup_cons]
      refine ⟨fun hmem => ?_, ih⟩
      have hk := assembleJoined_keys_subset (rest.filter (fun s => decide (s.1 ≠ r.1)))
        r.1 hmem
      simp only [List.mem_map, List.mem_filter, decide_eq_true_eq] at hk
      obtain ⟨s, ⟨_, hne⟩, heq⟩ := hk
      exact hne heq

/-- An owner key occurs in the assembled result exactly when some fetched
row carries it: no owner is dropped and none is invented. -/
theorem assembleJoined_mem_keys {κ α : Type} [DecidableEq κ]
    (rows : List (κ × α)) (k : κ) :
    k ∈ (assembleJoined rows).map Prod.fst ↔ k ∈ rows.map Prod.fst := by
  induction rows using assembleJoined.induct with
  | case1 => simp [assembleJoined]
  | case2 r rest ih =>
      simp only [assembleJoined, List.map_cons, List.mem_cons]
      constructor
      · rintro (h | h)
        · exact Or.inl h
        · have := assembleJoined_keys_subset _ k h
          simp only [List.mem_map, List.mem_filter] at this
          right
          obtain ⟨s, ⟨hs, _⟩, hk⟩ := this
          exact List.mem_map.2 ⟨s, hs, hk⟩
      · rintro (h | h)
        · exact Or.inl h
        · by_cases hkr : k = r.1
          · exact Or.inl hkr
          · right
            apply ih.2
            simp only [List.mem_map, List.mem_filter, decide_eq_true_eq] at h ⊢
            obtain ⟨s, hs, hk⟩ := h
            exact ⟨s, ⟨hs, by rw [hk]; exact hkr⟩, hk⟩

/-- Each assembled owner's relationship sequence is exactly the payloads of
the fetched rows carrying that owner's key, kept in backend row order:
one entry per linking row, no re-sort. -/
theorem assembleJoined_values {κ α : Type} [DecidableEq κ]
    (rows : List (κ × α)) :
    ∀ p ∈ assembleJoined rows,
      p.2 = (rows.filter (fun s => s.1 = p.1)).map Prod.snd := by
  induction rows using assembleJoined.induct with
  | case1 => intro p hp; simp [assembleJoined] at hp
  | case2 r rest ih =>
      intro p hp
      simp only [assembleJoined, List.mem_cons] at hp
      rcases hp with hp | hp
      · subst hp
        simp [List.filter_cons]
      · have hval := ih p hp
        have hkey : p.1 ∈ ((rest.filter (fun s => decide (s.1 ≠ r.1))).map Prod.fst) :=
          assembleJoined_keys_subset _ p.1 (List.mem_map_of_mem Prod.fst hp)
        simp only [List.mem_map, List.mem_filter, decide_eq_true_eq] at hkey
        obtain ⟨s, ⟨_, hne⟩, hk⟩ := hkey
        have hpr : p.1 ≠ r.1 := hk ▸ hne
        rw [hval, List.filter_filter, List.filter_cons]
        have hc : ¬(decide (r.1 = p.1) = true) := by
          simp only [decide_eq_true_eq]
          exact fun h => hpr h.symm
        rw [if_neg hc]
        congr 1
        apply List.filter_congr
        intro s _
        by_cases hsp : s.1 = p.1
        · simp [hsp, hpr]
        · simp [hsp]

/-- Modelled from the spec: the Session's identity map (the `Session`
object itself is library code outside the example file).  Keys are
primary-key tuples, flattened to `Nat`; values are in-memory instance
references, represented by the `Nat` identity the map assigned when the
instance was first materialized.  `nextRef` generates fresh instance
identities. -/
structure IdentityMap where
  entries : List (Nat × Nat)
  nextRef : Nat
  deriving DecidableEq, Repr

/-- Looks a key up in the identity map's entry list (first match wins;
later shadowed entries never arise because loads check before adding). -/
def lookupRef : List (Nat × Nat) → Nat → Option Nat
  | [], _ => none
  | e :: es, k => if e.1 = k then some e.2 else lookupRef es k

/-- Modelled from the spec: materializing one backend row through the
identity map.  If the key is already loaded in this Unit of Work the
existing instance is returned unchanged; otherwise a fresh instance is
allocated and recorded under the key. -/
def imLoad (m : IdentityMap) (k : Nat) : Nat × IdentityMap :=
  match lookupRef m.entries k with
  | some r => (r, m)
  | none => (m.nextRef, ⟨(k, m.nextRef) :: m.entries, m.nextRef + 1⟩)

/-- Modelled from the spec: `get(kind, key_tuple) -> InstanceRef | NotFound`.
Returns the identity-mapped instance if already loaded, else delegates to
the storage backend (`backendHas` says whether a row with the key exists)
and maps the loaded row through the identity map; `none` models
`NotFound`. -/
def imGet (m : IdentityMap) (backendHas : Nat → Bool) (k : Nat) :
    Option Nat × IdentityMap :=
  match lookupRef m.entries k with
  | some r => (some r, m)
  | none =>
      if backendHas k then
        let (r, m') := imLoad m k
        (some r, m')
      else (none, m)

/-- Modelled from the spec: `execute(QueryExpr, session)` materializes the
keys of the rows the backend returned through the Unit of Work's identity
map, in row order. -/
def imRunQuery (m : IdentityMap) : List Nat → List Nat × IdentityMap
  | [] => ([], m)
  | k :: ks =>
      let (r, m1) := imLoad m k
      let (rs, m2) := imRunQuery m1 ks
      (r :: rs, m2)

/-- A successful load leaves the key mapped to the returned reference. -/
theorem imLoad_lookup (m : IdentityMap) (k : Nat) :
    lookupRef (imLoad m k).2.entries k = some (imLoad m k).1 := by
  unfold imLoad
  cases h : lookupRef m.entries k with
  | some r => simp [h]
  | none => simp [lookupRef]

/-- Loading never disturbs an existing identity-map binding. -/
theorem imLoad_preserves (m : IdentityMap) (k j r : Nat)
    (hj : lookupRef m.entries j = some r) :
    lookupRef (imLoad m k).2.entries j = some r := by
  unfold imLoad
  cases h : lookupRef m.entries k with
  | some s => simpa
  | none =>
      simp only [lookupRef]
      by_cases hkj : k = j
      · subst hkj; rw [h] at hj; cases hj
      · simp [hkj, hj]

/-- Running a query never disturbs an existing identity-map binding. -/
theorem imRunQuery_preserves (ks : List Nat) :
    ∀ (m : IdentityMap) (j r : Nat), lookupRef m.entries j = some r →
      lookupRef (imRunQuery m ks).2.entries j = some r := by
  induction ks with
  | nil => intro m j r hj; simpa [imRunQuery]
  | cons k ks ih =>
      intro m j r hj
      simp only [imRunQuery]
      exact ih _ _ _ (imLoad_preserves m k j r hj)

/-- A load repeated on the post-state returns the same reference and
leaves the state unchanged. -/
theorem imLoad_stable (m : IdentityMap) (k r : Nat) (m' : IdentityMap)
    (h : imLoad m k = (r, m')) : imLoad m' k = (r, m') := by
  have hl : lookupRef m'.entries k = some r := by
    have := imLoad_lookup m k
    rw [h] at this
    exact this
  unfold imLoad
  rw [hl]

/-- Re-running a query on the post-state returns the same references and
leaves the identity map unchanged. -/
theorem imRunQuery_stable (ks : List Nat) :
    ∀ (m : IdentityMap) (rs : List Nat) (m2 : IdentityMap),
      imRunQuery m ks = (rs, m2) → imRunQuery m2 ks = (rs, m2) := by
  induction ks with
  | nil =>
      intro m rs m2 h
      simp only [imRunQuery] at h
      cases h
      rfl
  | cons k ks ih =>
      intro m rs m2 h
      simp only [imRunQuery] at h
      rcases hL : imLoad m k with ⟨r, m1⟩
      rw [hL] at h
      rcases hQ : imRunQuery m1 ks with ⟨rs2, m3⟩
      rw [hQ] at h
      cases h
      have hl1 : lookupRef m1.entries k = some r := by
        have hx := imLoad_lookup m k
        rw [hL] at hx
        exact hx
      have hl2 : lookupRef m3.entries k = some r := by
        have hx := imRunQuery_preserves ks m1 k r hl1
        rw [hQ] at hx
        exact hx
      have hL2 : imLoad m3 k = (r, m3) := by
        unfold imLoad
        rw [hl2]
      simp only [imRunQuery, hL2, ih m1 rs2 m3 hQ]

/-- Modelled from the spec: the Unit of Work's pending-delete set for
association rows (the `cascade="all, delete-orphan"` machinery of
`Order.order_items` is library code outside the example file).  Removing
an `OrderItem` from its owner's `order_items` collection schedules the
association's composite key for deletion on next flush. -/
structure UnitOfWork where
  db : DB
  pendingDeletes : List (Nat × Nat)

/-- Modelled from the spec: removing an association instance from its
owner's in-memory collection under `delete-orphan` cascade schedules it
for deletion on next flush. -/
def removeOrderItem (s : UnitOfWork) (oid iid : Nat) : UnitOfWork :=
  { s with pendingDeletes := (oid, iid) :: s.pendingDeletes }

/-- Modelled from the spec: `commit()` flushes the scheduled deletions to
the backend and clears the pending set. -/
def flushDeletes (s : UnitOfWork) : UnitOfWork :=
  { db := { s.db with
      orderitems := s.db.orderitems.filter
        (fun oi => decide ((oi.order_id, oi.item_id) ∉ s.pendingDeletes)) },
    pendingDeletes := [] }

/-- A backend `get` of an `orderitem` row by its composite primary key;
`none` models `NotFound`. -/
def getOrderItemRow (db : DB) (oid iid : Nat) : Option OrderItemRow :=
  db.orderitems.find? (fun oi => oi.order_id = oid && oi.item_id = iid)

/-- Modelled from the spec: the outcome of a flush — either the new
backend state, or `ConstraintError` (a foreign key references an
instance with no assigned key, because the caller added a child without
adding its parent). -/
inductive CommitOutcome where
  | committed (db : DB)
  | constraintError
  deriving Repr

/-- Modelled from the spec: the Unit of Work's pending-new sets for the
two kinds involved in the association scenario. -/
structure PendingSets where
  newOrders : List OrderRow
  newOrderItems : List OrderItemRow
  deriving DecidableEq, Repr

/-- A pending association row's owner foreign key resolves iff some
order — already persisted or pending in the same flush — carries its
`order_id`. -/
def orderItemHasOwner (db : DB) (p : PendingSets) (oi : OrderItemRow) : Bool :=
  (db.orders ++ p.newOrders).any (fun o => o.order_id = oi.order_id)

/-- Modelled from the spec: the flush step of `commit()` — writes succeed
only if every pending association row's foreign key resolves, otherwise
the flush fails with `ConstraintError`. -/
def flushPending (db : DB) (p : PendingSets) : CommitOutcome :=
  if p.newOrderItems.all (orderItemHasOwner db p) then
    .committed { db with
      orders := db.orders ++ p.newOrders,
      orderitems := db.orderitems ++ p.newOrderItems }
  else .constraintError

/-- Modelled from the spec: `commit()` — on success the pending sets are
cleared; on `ConstraintError` they are left intact so the caller may fix
the problem and retry. -/
def commitPending (db : DB) (p : PendingSets) : CommitOutcome × PendingSets :=
  match flushPending db p with
  | .committed db2 => (.committed db2, ⟨[], []⟩)
  | .constraintError => (.constraintError, p)

/-- Modelled from the spec: the Query Builder's predicate language — a
boolean combination of column comparisons over the `Order` kind (the
fragment the example's queries use). -/
inductive QPred where
  | custNameEq (s : String)
  | orderIdEq (n : Nat)
  | orderIdLt (n : Nat)
  | andP (a b : QPred)
  | orP (a b : QPred)
  | notP (a : QPred)
  deriving DecidableEq, Repr

/-- Evaluates a predicate against one `Order` row. -/
def evalPred : QPred → OrderRow → Bool
  | .custNameEq s, o => o.customer_name = s
  | .orderIdEq n, o => o.order_id = n
  | .orderIdLt n, o => o.order_id < n
  | .andP a b, o => evalPred a o && evalPred b o
  | .orP a b, o => evalPred a o || evalPred b o
  | .notP a, o => !evalPred a o

/-- Modelled from the spec: a `QueryExpr` over the `Order` kind — an
immutable value holding the conjunction of predicates accumulated by
`filter` calls. -/
structure QueryExpr where
  preds : List QPred
  deriving DecidableEq, Repr

/-- Modelled from the spec: `filter(QueryExpr, predicate) -> QueryExpr`
builds a new expression; the receiver is not touched. -/
def filterQuery (q : QueryExpr) (p : QPred) : QueryExpr :=
  ⟨q.preds ++ [p]⟩

/-- Modelled from the spec: `execute(QueryExpr, session)` — fetches the
rows of the `Order` table satisfying every accumulated predicate, in
backend row order. -/
def runQueryExpr (db : DB) (q : QueryExpr) : List OrderRow :=
  db.orders.filter (fun o => q.preds.all (fun p => evalPred p o))

/-- Modelled from the spec: the session's live query objects, addressed
by handle (list index).  Mutation of a query object, if any occurred,
would be visible as a change of the expression a handle maps to. -/
structure QueryStore where
  exprs : List QueryExpr
  deriving Repr

/-- Modelled from the spec: the `filter` call performed on a stored
query object: it allocates a new query expression extending the one `h`
refers to, and returns the new expression's handle. -/
def filterOp (s : QueryStore) (h : Nat) (p : QPred) : QueryStore × Nat :=
  (⟨s.exprs ++ [filterQuery (s.exprs.getD h ⟨[]⟩) p]⟩, s.exprs.length)

/-- `filter` composes: executing the extended expression returns exactly
the rows of the receiver's result that satisfy the new predicate. -/
theorem runQueryExpr_filterQuery (db : DB) (q : QueryExpr) (p : QPred) :
    runQueryExpr db (filterQuery q p) = (runQueryExpr db q).filter (evalPred p) := by
  unfold runQueryExpr filterQuery
  rw [List.filter_filter]
  apply List.filter_congr
  intro o _
  simp [List.all_append, Bool.and_comm]

/-- Embeds the `order_date` column default of the source:

```python
order_date = Column(DateTime, nullable=False, default=datetime.now())
```

`datetime.now()` is called once, while the class body executes, so the
column default is the timestamp frozen at class-definition time. -/
def orderDateDefault (classDefTime : Nat) : Nat :=
  classDefTime

/-- Embeds `Order.__init__` (which sets only `customer_name`) followed by
the flush that fills `order_date` from the column default.  The instance
is constructed at `_constructTime`, but per the source the stored
`order_date` is the value frozen at `classDefTime`, so `_constructTime`
does not enter the row. -/
def mkOrderRowFlushed (classDefTime _constructTime : Nat) (oid : Nat)
    (name : String) : OrderRow :=
  { order_id := oid, customer_name := name,
    order_date := orderDateDefault classDefTime }

/-- The catalog created by the example's `__main__` (item descriptions
kept abstract; the source instantiates them as `"SA T-Shirt"`,
`"SA Mug"`, `"SA Hat"`, `"MySQL Crowbar"`).  The backend assigns the
integer primary keys 1–4 in insertion order. -/
def catalogItems (dTshirt dMug dHat dCrowbar : String) : List Item :=
  [ { item_id := 1, description := dTshirt, price := 10.99 },
    { item_id := 2, description := dMug, price := 6.50 },
    { item_id := 3, description := dHat, price := 8.99 },
    { item_id := 4, description := dCrowbar, price := 16.99 } ]

/-- The three association rows of the example's order, in the order the
collection appends them: `OrderItem(mug)`, `OrderItem(crowbar, 10.99)`,
`OrderItem(hat)` — each row's price coming from `OrderItem.__init__`. -/
def demoOrderItems (dMug dHat dCrowbar : String) (oid : Nat) : List OrderItemRow :=
  [ mkOrderItemRow oid { item_id := 2, description := dMug, price := 6.50 } none,
    mkOrderItemRow oid { item_id := 4, description := dCrowbar, price := 16.99 } (some 10.99),
    mkOrderItemRow oid { item_id := 3, description := dHat, price := 8.99 } none ]

/-- Inserts an association row into a list kept sorted by `item_id`. -/
def insertByItemId (oi : OrderItemRow) : List OrderItemRow → List OrderItemRow
  | [] => [oi]
  | x :: xs =>
      if oi.item_id ≤ x.item_id then oi :: x :: xs else x :: insertByItemId oi xs

/-- Modelled from the spec: the backend returns `orderitem` rows in
primary-key order (for one order, ascending `item_id`) — the "backend
row order" the spec's ordering policy refers to; the example's own
expected output (`Mug`, `Hat`, `Crowbar`) reflects it. -/
def sortByItemId : List OrderItemRow → List OrderItemRow
  | [] => []
  | x :: xs => insertByItemId x (sortByItemId xs)

/-- The backend state after the example's two commits: the four catalog
items, the one order (assigned `order_id = 1`), and its three
association rows in backend row order. -/
def demoDB (dTshirt dMug dHat dCrowbar cust : String)
    (classDefTime tConstruct : Nat) : DB :=
  { orders := [mkOrderRowFlushed classDefTime tConstruct 1 cust],
    items := catalogItems dTshirt dMug dHat dCrowbar,
    orderitems := sortByItemId (demoOrderItems dMug dHat dCrowbar 1) }

/-- Embeds `session.query(Order).filter_by(customer_name=...)`. -/
def queryOrdersByName (db : DB) (name : String) : List OrderRow :=
  db.orders.filter (fun o => o.customer_name = name)

/-- The association rows the backend returns for one order (the fetch
behind reading `order.order_items`). -/
def loadOrderItemsOf (db : DB) (oid : Nat) : List OrderItemRow :=
  db.orderitems.filter (fun oi => oi.order_id = oid)

/-- Embeds the list comprehension
`[(order_item.item.description, order_item.price) for order_item in order.order_items]`:
each association row's eager-loaded `item` supplies the description. -/
def itemPairs (db : DB) (oid : Nat) : List (String × ℚ) :=
  (loadOrderItemsOf db oid).filterMap (fun oi =>
    (db.items.find? (fun it => it.item_id = oi.item_id)).map
      (fun it => (it.description, oi.price)))

/-- A `get` that returned an instance leaves the key bound to it: a
repeated `get` on the post-state returns the same reference and leaves
the identity map unchanged. -/
theorem imGet_stable (m : IdentityMap) (b : Nat → Bool) (k r : Nat)
    (m' : IdentityMap) (h : imGet m b k = (some r, m')) :
    imGet m' b k = (some r, m') := by
  have hl : lookupRef m'.entries k = some r := by
    unfold imGet at h
    cases hk : lookupRef m.entries k with
    | some r0 =>
        rw [hk] at h
        cases h
        exact hk
    | none =>
        rw [hk] at h
        by_cases hb : b k = true
        · rw [if_pos hb] at h
          have h1 := imLoad_lookup m k
          rcases hL : imLoad m k with ⟨r1, m1⟩
          rw [hL] at h h1
          cases h
          exact h1
        · rw [if_neg hb] at h
          cases h
  unfold imGet
  rw [hl]

/-- Claim C1: round-trip — an Order created with three OrderItem
associations (price override `10.99` for the crowbar item, defaults
`6.50` and `8.99` for the mug and hat taken from the items' own prices),
once committed and re-queried by customer name, yields exactly the
`(item.description, order_item.price)` pairs
`[(mug, 6.50), (hat, 8.99), (crowbar, 10.99)]` — the override and the
defaults used at creation, in backend row order. -/
theorem claim_C1_roundtrip (dT dM dH dC cust : String) (t0 t1 : Nat) :
    (queryOrdersByName (demoDB dT dM dH dC cust t0 t1) cust).map
        (fun o => itemPairs (demoDB dT dM dH dC cust t0 t1) o.order_id)
      = [[(dM, 6.50), (dH, 8.99), (dC, 10.99)]] := by
  norm_num [demoDB, queryOrdersByName, itemPairs, loadOrderItemsOf, catalogItems,
    demoOrderItems, sortByItemId, insertByItemId, mkOrderItemRow, orderItemPrice,
    mkOrderRowFlushed, orderDateDefault, List.filterMap_cons, List.find?]

/-- Claim C2 (counterexample): the claim as stated fails — constructing
`OrderItem(crowbar, 0.0)` with the explicit payload `0.0` does not set
the association's price to `0.0`; `price or item.price` takes the item's
own price because `0.0` is falsy. -/
theorem claim_C2_counterexample :
    orderItemPrice { item_id := 4, description := "MySQL Crowbar", price := 16.99 }
      (some 0) ≠ 0 := by
  norm_num [orderItemPrice]

/-- Claim C2 (amended): for every OrderItem construction, a supplied
*truthy* (nonzero) payload price is taken as the association's price,
and an omitted (or `None`) payload defaults to the referenced item's own
price. -/
theorem claim_C2_payload_default (item : Item) (p : ℚ) :
    (p ≠ 0 → orderItemPrice item (some p) = p) ∧
    orderItemPrice item none = item.price := by
  refine ⟨fun hp => ?_, rfl⟩
  simp [orderItemPrice, hp]

/-- Claim C2 witness: the example's own override — `OrderItem(crowbar, 10.99)`
stores `10.99`, and an omitted payload stores the item's price. -/
theorem claim_C2_payload_default_witness :
    orderItemPrice { item_id := 4, description := "MySQL Crowbar", price := 16.99 }
        (some 10.99) = 10.99 ∧
    orderItemPrice { item_id := 2, description := "SA Mug", price := 6.50 }
        none = 6.50 :=
  ⟨(claim_C2_payload_default _ 10.99).1 (by norm_num),
   (claim_C2_payload_default { item_id := 2, description := "SA Mug", price := 6.50 } 0).2⟩

/-- Claim C3: an OrderItem removed from its owner's `order_items`
collection is deleted by the `delete-orphan` cascade on commit — a
subsequent backend `get` by the association's composite key
`(order_id, item_id)` returns `NotFound` (`none`). -/
theorem claim_C3_delete_orphan (s : UnitOfWork) (oid iid : Nat) :
    getOrderItemRow (flushDeletes (removeOrderItem s oid iid)).db oid iid = none := by
  unfold getOrderItemRow flushDeletes removeOrderItem
  rw [List.find?_eq_none]
  intro x hx
  simp only [List.mem_filter, decide_eq_true_eq, List.mem_cons, not_or] at hx
  simp only [Bool.and_eq_true, decide_eq_true_eq, not_and]
  intro h1 h2
  exact hx.2.1 (by rw [h1, h2])

/-- Claim C4: identity-map invariant — a `get` that returned an instance
returns the identity-equal instance (same reference, unchanged state) when
repeated, and re-executing the same query against an unchanged backend
returns identity-equal instances both times. -/
theorem claim_C4_identity_map (m : IdentityMap) (b : Nat → Bool) (k r : Nat)
    (m' : IdentityMap) (ks rs : List Nat) (m2 : IdentityMap)
    (hget : imGet m b k = (some r, m'))
    (hq : imRunQuery m ks = (rs, m2)) :
    imGet m' b k = (some r, m') ∧ imRunQuery m2 ks = (rs, m2) :=
  ⟨imGet_stable m b k r m' hget, imRunQuery_stable ks m rs m2 hq⟩

/-- Claim C4 witness: a fresh session loads key 1 from the backend, and a
repeated `get` returns the same reference with the map unchanged; a query
returning the row with key 2 twice materializes one shared instance, and
re-executing it reproduces the same references. -/
theorem claim_C4_identity_map_witness :
    imGet { entries := [(1, 0)], nextRef := 1 } (fun j => decide (j = 1)) 1
        = (some 0, { entries := [(1, 0)], nextRef := 1 }) ∧
    imRunQuery { entries := [(2, 0)], nextRef := 1 } [2, 2]
        = ([0, 0], { entries := [(2, 0)], nextRef := 1 }) :=
  claim_C4_identity_map { entries := [], nextRef := 0 } (fun j => decide (j = 1))
    1 0 { entries := [(1, 0)], nextRef := 1 } [2, 2] [0, 0]
    { entries := [(2, 0)], nextRef := 1 } rfl rfl

/-- Claim C5: eager (joined) loading — materializing the single joined
fetch deduplicates owner rows fanned out across multiple linked rows
(no owner duplication in the outer sequence, each owner key mapping to
exactly one instance, no owner dropped or invented), and each owner's
relationship attribute is the sequence of its linking rows in backend
row order, one entry per linking row, with no re-sort. -/
theorem claim_C5_eager_join {α : Type} (rows : List (Nat × α)) :
    ((assembleJoined rows).map Prod.fst).Nodup ∧
    (∀ k, k ∈ (assembleJoined rows).map Prod.fst ↔ k ∈ rows.map Prod.fst) ∧
    (∀ p ∈ assembleJoined rows,
      p.2 = (rows.filter (fun s => s.1 = p.1)).map Prod.snd) :=
  ⟨assembleJoined_keys_nodup rows,
   fun k => assembleJoined_mem_keys rows k,
   assembleJoined_values rows⟩

/-- Claim C5 witness: owner 1 fans out across rows 1 and 3 of the joined
fetch; the assembled result lists owner 1 once with its two linked rows
in backend order, and owner 2 once. -/
theorem claim_C5_eager_join_witness :
    ((assembleJoined [((1 : Nat), (10 : Nat)), (2, 20), (1, 11)]).map Prod.fst).Nodup ∧
    ((1 : Nat) ∈ (assembleJoined [((1 : Nat), (10 : Nat)), (2, 20), (1, 11)]).map Prod.fst ↔
      (1 : Nat) ∈ [((1 : Nat), (10 : Nat)), (2, 20), (1, 11)].map Prod.fst) ∧
    ([10, 11] : List Nat)
      = ([((1 : Nat), (10 : Nat)), (2, 20), (1, 11)].filter
          (fun s => s.1 = 1)).map Prod.snd :=
  ⟨(claim_C5_eager_join _).1,
   (claim_C5_eager_join _).2.1 1,
   (claim_C5_eager_join _).2.2 ((1 : Nat), ([10, 11] : List Nat))
     (by simp [assembleJoined])⟩

/-- Claim C6: the sale query — joining Order through `orderitem` to
`item` and filtering `description = desc AND item.price > orderitem.price`
returns exactly the orders for which some stored association price is
strictly below the item's current catalog price: no others, and none
omitted. -/
theorem claim_C6_sale_query (db : DB) (desc : String) (o : OrderRow) :
    o ∈ saleQueryOrders db desc ↔
      o ∈ db.orders ∧ ∃ oi ∈ db.orderitems, oi.order_id = o.order_id ∧
        ∃ it ∈ db.items, it.item_id = oi.item_id ∧ it.description = desc ∧
          oi.price < it.price := by
  simp only [saleQueryOrders, List.mem_flatMap, List.mem_map, List.mem_filter,
    Bool.and_eq_true, decide_eq_true_eq]
  constructor
  · rintro ⟨o2, ho2, oi, ⟨hoi, hoid⟩, it, ⟨hit, ⟨⟨hiid, hdesc⟩, hlt⟩⟩, rfl⟩
    exact ⟨ho2, oi, hoi, hoid, it, hit, hiid, hdesc, hlt⟩
  · rintro ⟨ho, oi, hoi, hoid, it, hit, hiid, hdesc, hlt⟩
    exact ⟨o, ho, oi, ⟨hoi, hoid⟩, it, ⟨hit, ⟨⟨hiid, hdesc⟩, hlt⟩⟩, rfl⟩

/-- Claim C7: adding an association row whose owner was never added, then
committing, fails with `ConstraintError` and leaves the pending sets
intact and non-empty, so the caller may add the owner and retry. -/
theorem claim_C7_constraint_error (db : DB) (p : PendingSets) (oi : OrderItemRow)
    (hmem : oi ∈ p.newOrderItems)
    (hno : orderItemHasOwner db p oi = false) :
    commitPending db p = (.constraintError, p) ∧ p.newOrderItems ≠ [] := by
  have hall : p.newOrderItems.all (orderItemHasOwner db p) = false := by
    rw [List.all_eq_false]
    exact ⟨oi, hmem, by rw [hno]; exact Bool.false_ne_true⟩
  refine ⟨?_, List.ne_nil_of_mem hmem⟩
  unfold commitPending flushPending
  rw [hall]
  rfl

/-- Claim C7 witness: a session holding one pending association row for
`order_id = 1` with no order added fails its commit with
`ConstraintError`, the pending association still staged. -/
theorem claim_C7_constraint_error_witness :
    commitPending { orders := [], items := [], orderitems := [] }
        { newOrders := [], newOrderItems := [{ order_id := 1, item_id := 1, price := 5 }] }
      = (.constraintError,
         { newOrders := [], newOrderItems := [{ order_id := 1, item_id := 1, price := 5 }] }) ∧
    ({ newOrders := [], newOrderItems := [{ order_id := 1, item_id := 1, price := 5 }] }
      : PendingSets).newOrderItems ≠ [] :=
  claim_C7_constraint_error { orders := [], items := [], orderitems := [] }
    { newOrders := [], newOrderItems := [{ order_id := 1, item_id := 1, price := 5 }] }
    { order_id := 1, item_id := 1, price := 5 } (List.mem_singleton.2 rfl) rfl

/-- Claim C8: `filter` returns a new immutable QueryExpr and does not
mutate the receiver — after the call the receiver's handle still maps to
the same expression (so executing it yields the same results as before),
the returned handle is a different one, and the new expression's result
is the receiver's result narrowed by the new predicate. -/
theorem claim_C8_filter_immutable (s : QueryStore) (h : Nat) (p : QPred) (db : DB)
    (hh : h < s.exprs.length) :
    ((filterOp s h p).1.exprs.getD h ⟨[]⟩ = s.exprs.getD h ⟨[]⟩) ∧
    (filterOp s h p).2 ≠ h ∧
    runQueryExpr db ((filterOp s h p).1.exprs.getD (filterOp s h p).2 ⟨[]⟩)
      = (runQueryExpr db (s.exprs.getD h ⟨[]⟩)).filter (evalPred p) := by
  unfold filterOp
  refine ⟨List.getD_append _ _ _ _ hh, Nat.ne_of_gt hh, ?_⟩
  have hnew : (s.exprs ++ [filterQuery (s.exprs.getD h ⟨[]⟩) p]).getD s.exprs.length ⟨[]⟩
      = filterQuery (s.exprs.getD h ⟨[]⟩) p := by
    simp [List.getD, List.getElem?_concat_length]
  rw [hnew, runQueryExpr_filterQuery]

/-- Claim C8 witness: filtering the stored all-rows query over a one-row
backend leaves the original query (and its result) untouched and returns
a fresh handle whose query narrows the result. -/
theorem claim_C8_filter_immutable_witness :
    ((filterOp { exprs := [{ preds := [] }] } 0 (.custNameEq "x")).1.exprs.getD 0 ⟨[]⟩
        = ({ exprs := [{ preds := [] }] } : QueryStore).exprs.getD 0 ⟨[]⟩) ∧
    (filterOp { exprs := [{ preds := [] }] } 0 (.custNameEq "x")).2 ≠ 0 ∧
    runQueryExpr
        { orders := [{ order_id := 1, customer_name := "y", order_date := 0 }],
          items := [], orderitems := [] }
        ((filterOp { exprs := [{ preds := [] }] } 0 (.custNameEq "x")).1.exprs.getD
          (filterOp { exprs := [{ preds := [] }] } 0 (.custNameEq "x")).2 ⟨[]⟩)
      = (runQueryExpr
          { orders := [{ order_id := 1, customer_name := "y", order_date := 0 }],
            items := [], orderitems := [] }
          (({ exprs := [{ preds := [] }] } : QueryStore).exprs.getD 0 ⟨[]⟩)).filter
          (evalPred (.custNameEq "x")) :=
  claim_C8_filter_immutable { exprs := [{ preds := [] }] } 0 (.custNameEq "x")
    { orders := [{ order_id := 1, customer_name := "y", order_date := 0 }],
      items := [], orderitems := [] }
    (by decide)

/-- Claim C9: the Order timestamp default is evaluated a single time at
class definition, not per row — any two Order instances constructed
without an explicit `order_date`, at different construction times, end
up with equal (shared, frozen) `order_date` values. -/
theorem claim_C9_frozen_timestamp (classDefTime t1 t2 oid1 oid2 : Nat)
    (n1 n2 : String) :
    (mkOrderRowFlushed classDefTime t1 oid1 n1).order_date
      = (mkOrderRowFlushed classDefTime t2 oid2 n2).order_date := rfl

/-- Claim C10: a falsy explicit payload — `0.0`/`0` or an explicit
`None` — makes `OrderItem.__init__` fall back to the item's own price:
the default is taken whenever the supplied value is falsy, not only when
the argument is omitted. -/
theorem claim_C10_falsy_payload (item : Item) :
    orderItemPrice item (some 0) = item.price ∧
    orderItemPrice item none = item.price := by
  constructor <;> simp [orderItemPrice]
